import Mathlib

/-!
# A shallow embedding of the `pylvp` LVP client

This file embeds the parts of `pylvp` (the single-device client
`src/pylvp/lvp.py` and the multi-device pool `src/pylvp/lvp_pool.py`)
that carry the protocol and pool logic, and proves properties about them:

* value coercion of `get` responses (`normalize_response`);
* the response grammars `GET_RESP_RE`, `SET_RESP_RE` and the declaration
  grammar `FUNC_SPEC_RE`, implemented as executable matchers with Python
  `re.search` / `re.fullmatch` semantics for these concrete patterns;
* the wire-level behaviour of `send` / `_recv` and the `quiet` context
  manager, as explicit state passing over a `WireState`;
* `set` argument merging and its per-key exchange loop;
* the pool registry (Python `dict` insertion-order semantics over an
  association list), `query` resolution and `_parallel_map` assembly.

External collaborators (the serial transport, port enumeration, logging
sinks) are abstracted: the bytes a transport yields for one exchange are
passed in as an explicit argument, and everything the client writes to the
wire is recorded in a trace.  All strings are treated as ASCII text, which
is the protocol's domain.
-/

/-- Python whitespace (`str.strip`, regex `\s`): space, tab, newline,
carriage return, vertical tab, form feed. -/
def isPySpace (c : Char) : Bool :=
  c = ' ' || c = '\t' || c = '\n' || c = '\r' || c = '\x0b' || c = '\x0c'

/-- ASCII word characters, the regex class `[\w_]` over ASCII input. -/
def isWordChar (c : Char) : Bool :=
  ('a' ≤ c && c ≤ 'z') || ('A' ≤ c && c ≤ 'Z') || ('0' ≤ c && c ≤ '9') || c = '_'

/-- ASCII decimal digits. -/
def isDigitChar (c : Char) : Bool := '0' ≤ c && c ≤ '9'

/-- Python `str.strip()`: remove leading and trailing whitespace. -/
def pyStrip (s : String) : String :=
  String.mk (((s.data.dropWhile isPySpace).reverse.dropWhile isPySpace).reverse)

/-- The `Value = Union[str, float, int]` type of `lvp.py`.  A float is
represented by the accepted literal text: IEEE-754 value semantics are
outside this embedding, and no claim in this development depends on the
numeric value of a float, only on which coercion branch is taken. -/
inductive Value where
  | int (n : Int)
  | float (lit : String)
  | str (s : String)
deriving DecidableEq, Repr

/-- A `digitpart` of Python's numeric-literal grammar: a nonempty run of
ASCII digits with single underscores strictly between digits. -/
def validDigitPart (cs : List Char) : Bool :=
  decide (cs ≠ []) &&
  cs.all (fun c => isDigitChar c || c = '_') &&
  isDigitChar (cs.headD '_') &&
  isDigitChar (cs.getLastD '_') &&
  (cs.zip cs.tail).all (fun p => !(p.1 = '_' && p.2 = '_'))

/-- Strip an optional leading sign, remembering whether it was `-`. -/
def splitSign : List Char → Bool × List Char
  | '+' :: rest => (false, rest)
  | '-' :: rest => (true, rest)
  | cs => (false, cs)

/-- Drop an optional leading sign. -/
def dropSign (cs : List Char) : List Char := (splitSign cs).2

/-- Numeric value of a digit run, ignoring underscores. -/
def digitsVal (cs : List Char) : Nat :=
  (cs.filter (fun c => c ≠ '_')).foldl (fun n c => n * 10 + (c.toNat - 48)) 0

/-- Python `int(s)` on an already-stripped string: an optional sign
followed by a `digitpart`; anything else raises `ValueError` (`none`). -/
def pyParseInt (s : String) : Option Int :=
  let p := splitSign s.data
  if validDigitPart p.2 then
    some (if p.1 then -(digitsVal p.2 : Int) else (digitsVal p.2 : Int))
  else none

/-- Case-insensitive comparison of a character list with a literal. -/
def lowerEq (cs : List Char) (lit : String) : Bool :=
  cs.map Char.toLower == lit.data

/-- Split a character list at the first character satisfying `p`,
returning the parts before and after it, or `none` if absent. -/
def splitAtFirst (p : Char → Bool) : List Char → Option (List Char × List Char)
  | [] => none
  | c :: rest =>
    if p c then some ([], rest)
    else match splitAtFirst p rest with
      | some q => some (c :: q.1, q.2)
      | none => none

/-- Mantissa of Python's float grammar: `digitpart`, or
`digitpart? "." digitpart?` with at least one digit present. -/
def validMantissa (cs : List Char) : Bool :=
  match splitAtFirst (fun c => c = '.') cs with
  | none => validDigitPart cs
  | some q =>
    (decide (q.1 = []) || validDigitPart q.1) &&
    (decide (q.2 = []) || validDigitPart q.2) &&
    !(decide (q.1 = []) && decide (q.2 = []))

/-- Python `float(s)` acceptance on an already-stripped string: an optional
sign, then `inf`/`infinity`/`nan` (case-insensitive) or a mantissa with an
optional exponent. -/
def pyFloatAccepts (s : String) : Bool :=
  let cs := dropSign s.data
  lowerEq cs "inf" || lowerEq cs "infinity" || lowerEq cs "nan" ||
  (match splitAtFirst (fun c => c = 'e' || c = 'E') cs with
   | none => validMantissa cs
   | some q => validMantissa q.1 && validDigitPart (dropSign q.2))

/-- `normalize_response` from `lvp.py`: strip the value, try `int(value)`,
then `float(value)`, else keep the string.  Note that the fall-through
returns the *stripped* string: `value` is rebound by `value.strip()`
before the parse attempts. -/
def normalize_response (value : String) : Value :=
  let value := pyStrip value
  match pyParseInt value with
  | some n => .int n
  | none =>
    if pyFloatAccepts value then .float value
    else .str value

example : normalize_response " 3 " = .int 3 := by decide
example : normalize_response "-42" = .int (-42) := by decide
example : normalize_response "3.5" = .float "3.5" := by decide
example : normalize_response " -1.5e3 " = .float "-1.5e3" := by decide
example : normalize_response "abc" = .str "abc" := by decide
example : normalize_response "abc " = .str "abc" := by decide
example : normalize_response "1_000" = .int 1000 := by decide
example : normalize_response "1_" = .str "1_" := by decide
example : normalize_response "inf" = .float "inf" := by decide
example : normalize_response ".5" = .float ".5" := by decide
example : normalize_response "." = .str "." := by decide
example : normalize_response "1e" = .str "1e" := by decide

/-! ## Response and specification grammars

`lvp.py` fixes three regular expressions:

* `FUNC_SPEC_RE  = ([\w_]+)\(([^()]*)\)` used with `fullmatch`;
* `GET_RESP_RE   = Parameter\s+'([\w_]+)':\s+([^\n\r]+)` used with `search`;
* `SET_RESP_RE   = Parameter\s+'([\w_]+)'\s+set to\s+'([^\n\r']+)'` used
  with `search`.

Each is implemented directly as an executable matcher.  For these concrete
patterns the leftmost-match / greedy semantics of Python `re` is almost
deterministic: every repetition is followed by a character outside its
class, except the second `\s+` of the get pattern, which may have to give
back trailing whitespace to the final `[^\n\r]+` when the response ends in
whitespace; that single backtracking case is handled explicitly. -/

/-- Consume an exact literal, returning the rest of the input. -/
def dropLit : List Char → List Char → Option (List Char)
  | [], s => some s
  | _ :: _, [] => none
  | c :: cs, d :: ds => if c = d then dropLit cs ds else none

/-- Match `FUNC_SPEC_RE.fullmatch`: `([\w_]+)\(([^()]*)\)` against the
whole input; on success return the `name` and `args` captures. -/
def funcSpecFullmatch (s : List Char) : Option (String × String) :=
  let p := s.span isWordChar
  if p.1 = [] then none
  else
    match p.2 with
    | '(' :: rest =>
      let q := rest.span (fun c => !(c = '(' || c = ')'))
      match q.2 with
      | [')'] => some (String.mk p.1, String.mk q.1)
      | _ => none
    | _ => none

/-- Match `GET_RESP_RE` at the start of the input:
`Parameter\s+'([\w_]+)':\s+([^\n\r]+)`.  The final `\s+` is matched
greedily; when nothing follows the whitespace run, it backtracks one
position at a time until the value class can take at least one character
(which is then a lone space-like character, everything to its right being
newline characters by maximality). -/
def getMatchAt (s : List Char) : Option (String × String) := do
  let s1 ← dropLit "Parameter".data s
  let ws := s1.span isPySpace
  if ws.1 = [] then none else
  let s2 ← dropLit "'".data ws.2
  let nm := s2.span isWordChar
  if nm.1 = [] then none else
  let s3 ← dropLit "':".data nm.2
  let ws2 := s3.span isPySpace
  if ws2.1 = [] then none else
  match ws2.2 with
  | c :: rest =>
    let v := (c :: rest).span (fun c => !(c = '\n' || c = '\r'))
    some (String.mk nm.1, String.mk v.1)
  | [] =>
    -- input exhausted by the whitespace run: give back its last
    -- non-newline character (if any, leaving at least one for `\s+`)
    match (ws2.1.drop 1).reverse.find? (fun c => !(c = '\n' || c = '\r')) with
    | some c => some (String.mk nm.1, String.mk [c])
    | none => none

/-- Match `SET_RESP_RE` at the start of the input:
`Parameter\s+'([\w_]+)'\s+set to\s+'([^\n\r']+)'`. -/
def setMatchAt (s : List Char) : Option (String × String) := do
  let s1 ← dropLit "Parameter".data s
  let ws := s1.span isPySpace
  if ws.1 = [] then none else
  let s2 ← dropLit "'".data ws.2
  let nm := s2.span isWordChar
  if nm.1 = [] then none else
  let s3 ← dropLit "'".data nm.2
  let ws2 := s3.span isPySpace
  if ws2.1 = [] then none else
  let s4 ← dropLit "set to".data ws2.2
  let ws3 := s4.span isPySpace
  if ws3.1 = [] then none else
  let s5 ← dropLit "'".data ws3.2
  let v := s5.span (fun c => !(c = '\n' || c = '\r' || c = '\''))
  if v.1 = [] then none else
  match v.2 with
  | '\'' :: _ => some (String.mk nm.1, String.mk v.1)
  | _ => none

/-- `GET_RESP_RE.search`: try `getMatchAt` at every position, leftmost
match first. -/
def searchGetResp : List Char → Option (String × String)
  | [] => none
  | c :: rest =>
    match getMatchAt (c :: rest) with
    | some r => some r
    | none => searchGetResp rest

/-- `SET_RESP_RE.search`: try `setMatchAt` at every position, leftmost
match first. -/
def searchSetResp : List Char → Option (String × String)
  | [] => none
  | c :: rest =>
    match setMatchAt (c :: rest) with
    | some r => some r
    | none => searchSetResp rest

example : funcSpecFullmatch "blink(n)".data = some ("blink", "n") := by decide
example : funcSpecFullmatch "foo(a, b)".data = some ("foo", "a, b") := by decide
example : funcSpecFullmatch "foo()".data = some ("foo", "") := by decide
example : funcSpecFullmatch "foo(a,b".data = none := by decide
example : funcSpecFullmatch "foo(a)b".data = none := by decide
example : funcSpecFullmatch "foo((a))".data = none := by decide
example : funcSpecFullmatch "(a)".data = none := by decide
example : funcSpecFullmatch "foo(a$)".data = some ("foo", "a$") := by decide
example : funcSpecFullmatch "1(a)".data = some ("1", "a") := by decide

example : searchGetResp "Parameter 'x': 42\n".data = some ("x", "42") := by decide
example : searchGetResp "noise Parameter 'x': a b\r\n".data = some ("x", "a b") := by decide
example : searchGetResp "Parameter 'x':   ".data = some ("x", " ") := by decide
example : searchGetResp "Parameter 'x': \n".data = none := by decide
example : searchGetResp "Parameter 'x':42".data = none := by decide
example : searchGetResp "garbage".data = none := by decide

example : searchSetResp "Parameter 'x' set to '42'\n".data = some ("x", "42") := by decide
example : searchSetResp "Parameter 'x' set to '42".data = none := by decide
example : searchSetResp "Parameter 'x' set  to '42'".data = none := by decide

/-! ## Errors and the single-link client -/

/-- The exceptions the client raises:
`RuntimeError(f"bad response: {out!r}")` (carrying the raw response),
`ValueError(f"invalid specification: {spec!r}")`,
`TypeError("function accepts at most 2 positional arguments")` and
`ValueError("invalid query")` from the pool. -/
inductive PyError where
  | badResponse (raw : String)
  | valueError (spec : String)
  | typeError
  | queryError
deriving DecidableEq, Repr

/-- Python `str()` of a protocol value, as interpolated by the f-strings
`f"set({name},{value})"`.  A float prints as its literal (an
approximation of `str(float)`; no claim depends on float formatting). -/
def pyStr : Value → String
  | .int n => toString n
  | .float lit => lit
  | .str s => s

/-- The observable state of one `LVP` link: the client-side quiet flag
`self._quiet` and the trace of byte strings written to the serial port.
Lifecycle bookkeeping (`_init`, cooldown) and the lock are elided: the
embedding is single-threaded and all claims concern a link past `init`. -/
structure WireState where
  quiet : Bool
  sent : List String
deriving DecidableEq, Repr

namespace LVP

/-- `LVP._send`: write the bytes to the serial port (recorded in the
trace); logging is external. -/
def sendRaw (st : WireState) (msg : String) : WireState :=
  { st with sent := st.sent ++ [msg] }

/-- `LVP._recv` abstracted over the transport: in quiet mode nothing is
read and the empty byte string is returned; otherwise the call returns
the bytes the transport yields for this exchange (`read_until(b"\r\n")`
followed by the flush loop drains everything available). -/
def recv (st : WireState) (incoming : String) : String :=
  if st.quiet then "" else incoming

/-- `LVP.send`: append a trailing newline if absent, write the message,
receive (a no-op in quiet mode), and return the received text with
`\r\n` normalized to `\n`.  `init()` and the lock are elided. -/
def send (st : WireState) (msg : String) (incoming : String) :
    WireState × String :=
  let msg := if msg.data.getLast? = some '\n' then msg else msg ++ "\n"
  let st' := sendRaw st msg
  (st', (recv st' incoming).replace "\r\n" "\n")

/-- Entry half of the `LVP.quiet` context manager: save `self._quiet` and,
if it was off, write `quiet_connect\n`.  NOTE (faithful to the source):
the flag itself is *not* set before the managed block runs. -/
def quietEnter (st : WireState) : WireState × Bool :=
  let is_quiet := st.quiet
  if is_quiet then (st, is_quiet)
  else (sendRaw st "quiet_connect\n", is_quiet)

/-- Exit half of the `LVP.quiet` context manager: restore the saved flag
and, if it was off, run a full `send("manual_connect")` exchange. -/
def quietExit (st : WireState) (is_quiet : Bool) (incoming : String) :
    WireState :=
  let st' : WireState := { st with quiet := is_quiet }
  if is_quiet then st' else (send st' "manual_connect" incoming).1

/-- `LVP._get` after the `send` exchange: match the decoded response
against `GET_RESP_RE`; no match, or a matched name different from the
requested one, raises `RuntimeError` carrying the raw response; otherwise
the captured value string is coerced by `normalize_response`. -/
def getOne (name : String) (resp : String) : Except PyError Value :=
  match searchGetResp resp.data with
  | none => .error (.badResponse resp)
  | some m =>
    if m.1 = name then .ok (normalize_response m.2)
    else .error (.badResponse resp)

/-- The command text of one `set` exchange: `f"set({name},{value})"`. -/
def setMsg (k : String) (v : Value) : String :=
  "set(" ++ k ++ "," ++ pyStr v ++ ")"

/-- `LVP._set` response validation: the decoded response must contain a
`SET_RESP_RE` match whose name equals the requested one (the captured
value is not checked by the source). -/
def checkSetResp (name resp : String) : Bool :=
  match searchSetResp resp.data with
  | none => false
  | some m => m.1 = name

/-- The `for k, v in kwargs.items(): self._set(k, v)` loop of `LVP.set`:
one `send`/check exchange per assignment, in order, stopping with
`RuntimeError` (carrying the raw response) at the first mismatch.
Returns the trace of command texts passed to `send` together with the
outcome; `responses` are the decoded transport responses, consumed one
per exchange (a missing one stands for an unresponsive device and is the
empty string, which matches no grammar). -/
def setRun : List (String × Value) → List String →
    List String × Except PyError Unit
  | [], _ => ([], .ok ())
  | (k, v) :: rest, responses =>
    let resp := responses.headD ""
    if checkSetResp k resp then
      let out := setRun rest responses.tail
      (setMsg k v :: out.1, out.2)
    else ([setMsg k v], .error (.badResponse resp))

/-- The positional-argument shapes of `LVP.set(*args, **kwargs)`:
no positional argument, one positional mapping, a key/value pair, or
`extra n` standing for any tuple of `n + 3` positional arguments (whose
contents the source never inspects: it raises before using them). -/
inductive SetArgs where
  | noArgs
  | mapping (m : List (String × Value))
  | pair (k : String) (v : Value)
  | extra (n : Nat)
deriving DecidableEq, Repr

end LVP

/-! ## Python `dict` semantics over association lists

`lvp_pool.py` builds `{dev.id: dev}` registries and `{dev.id: res}`
result mappings, and `lvp.py` merges `{**args[0], **kwargs}`.  A Python
`dict` is modelled as an association list with insertion-order semantics:
assigning to an existing key keeps its position and replaces its value,
assigning a new key appends it. -/

section PyDict

variable {K V : Type} [DecidableEq K]

/-- Python `d[k] = v`. -/
def pyDictInsert (d : List (K × V)) (k : K) (v : V) : List (K × V) :=
  if k ∈ d.map Prod.fst then
    d.map (fun p => if p.1 = k then (k, v) else p)
  else d ++ [(k, v)]

/-- Python `dict(pairs)` / `{**pairs}`: left-to-right insertion into an
empty dict. -/
def pyDictOfList (l : List (K × V)) : List (K × V) :=
  l.foldl (fun d p => pyDictInsert d p.1 p.2) []

/-- Python `d[k]` / `d.get(k)`: value of the first (unique) entry for `k`. -/
def pyLookup (d : List (K × V)) (k : K) : Option V :=
  (d.find? (fun p => decide (p.1 = k))).map Prod.snd

end PyDict

namespace LVP

/-- The single ordered assignment set built by `LVP.set` from its
positional and keyword arguments:

* `set(**kwargs)` iterates `kwargs` itself;
* `set(mapping, **kwargs)` iterates `{**mapping, **kwargs}`;
* `set(key, value, **kwargs)` iterates `kwargs` after `kwargs[key] = value`;
* three or more positional arguments never reach the loop.

Keyword arguments form a Python dict (unique keys, call order); the
association list passed in is normalized through `pyDictOfList`, the
identity whenever its keys are already unique. -/
def mergedAssignments (args : SetArgs) (kwargs : List (String × Value)) :
    List (String × Value) :=
  match args with
  | .noArgs => pyDictOfList kwargs
  | .mapping m => pyDictOfList (m ++ kwargs)
  | .pair k v => pyDictInsert (pyDictOfList kwargs) k v
  | .extra _ => []

/-- `LVP.set`: merge the arguments and run one exchange per assignment in
order; more than two positional arguments raise `TypeError` before
anything is sent.  Returns the trace of command texts passed to `send`
and the outcome. -/
def set (args : SetArgs) (kwargs : List (String × Value))
    (responses : List String) : List String × Except PyError Unit :=
  match args with
  | .extra _ => ([], .error .typeError)
  | _ => setRun (mergedAssignments args kwargs) responses

/-- A function registered by `LVP.declare`: the parsed name and the
captured ordered parameter-name list (the closure the source builds
captures exactly these two). -/
structure FuncDecl where
  name : String
  argnames : List String
deriving DecidableEq, Repr

/-- Python `str.split(sep)` for a one-character separator: e.g.
`"a,b" ↦ ["a", "b"]`, `"" ↦ [""]`, `"a," ↦ ["a", ""]`. -/
def splitOnChar (sep : Char) : List Char → List (List Char)
  | [] => [[]]
  | c :: rest =>
    let r := splitOnChar sep rest
    if c = sep then [] :: r
    else
      match r with
      | h :: t => (c :: h) :: t
      | [] => [[c]]

/-- `LVP.declare`: `FUNC_SPEC_RE.fullmatch` the specification; on failure
raise `ValueError` (carrying the spec) with nothing registered; on
success split the argument capture on commas, strip each piece, and
register the function under its name (`setattr(self, name, func)`,
modelled as a name-keyed mapping on the link). -/
def declare (funcs : List (String × FuncDecl)) (spec : String) :
    Except PyError (List (String × FuncDecl)) :=
  match funcSpecFullmatch spec.data with
  | none => .error (.valueError spec)
  | some m =>
    let argnames := (splitOnChar ',' m.2.data).map (fun a => pyStrip (String.mk a))
    .ok (pyDictInsert funcs m.1 ⟨m.1, argnames⟩)

end LVP

deriving instance DecidableEq for Except

example :
    LVP.declare [] "blink(n, k)" =
      .ok [("blink", ⟨"blink", ["n", "k"]⟩)] := by decide
example : LVP.declare [] "foo(a,b" = .error (.valueError "foo(a,b") := by decide

/-! ## The pool (`lvp_pool.py`) -/

/-- An `LVP` link as the pool sees it: `oid` models Python object identity
(two distinct client objects may carry equal id strings), `id` is the
`LVP.id` property used to key the registry. -/
structure Link where
  oid : Nat
  id : String
deriving DecidableEq, Repr

/-- `LVPPool`: the read-only registry
`MappingProxyType({dev.id: dev for dev in devices})`. -/
structure Pool where
  registry : List (String × Link)
deriving DecidableEq, Repr

/-- `LVPPool.__init__`: build the id-keyed registry by dict comprehension
(a duplicate id is silently overwritten, keeping the first position). -/
def mkPool (devs : List Link) : Pool :=
  ⟨pyDictOfList (devs.map (fun d => (d.id, d)))⟩

/-- `LVPPool.__iter__`: `iter(self.devices.values())`, also the list
`query(...)` returns for the wildcard. -/
def Pool.iterLinks (p : Pool) : List Link :=
  p.registry.map Prod.snd

/-- The selector shapes `LVPPool.query` distinguishes: the Ellipsis
wildcard, an `LVP` instance, a list/tuple of selectors, a string id, or
any other (hashable) value, which falls through every test. -/
inductive Query where
  | wild
  | dev (l : Link)
  | seq (qs : List Query)
  | str (s : String)
  | other

/-- `set.add` on the identity-keyed result set, represented as a
duplicate-free list in first-insertion order (Python's `set` iteration
order is unspecified; every property proved about query results is
order-insensitive). -/
def setAdd (acc : List Link) (x : Link) : List Link :=
  if x ∈ acc then acc else acc ++ [x]

/-- `result.update(xs)`: add every element of `xs`. -/
def setUpdate (acc : List Link) (xs : List Link) : List Link :=
  xs.foldl setAdd acc

/-- Resolution of a string selector: `self.devices[query]` when the id is
registered, else `ValueError("invalid query")`.  `query(dev)` recurses as
`self.query(query.id)`, which lands here as well (a string is never the
wildcard and never an `LVP` instance or sequence). -/
def Pool.queryId (p : Pool) (s : String) : Except PyError (List Link) :=
  match pyLookup p.registry s with
  | some l => .ok [l]
  | none => .error .queryError

mutual

/-- `LVPPool.query`: wildcard → every registered link in registry order;
an `LVP` instance → `self.query(query.id)`; a list/tuple → the set union
of the recursively resolved selectors; a registered id string → that
link; anything else → `ValueError("invalid query")`. -/
def Pool.query (p : Pool) : Query → Except PyError (List Link)
  | .wild => .ok (p.registry.map Prod.snd)
  | .dev l => p.queryId l.id
  | .seq qs => p.queryList [] qs
  | .str s => p.queryId s
  | .other => .error .queryError

/-- The `result = set(); for q in query: result.update(self.query(q))`
loop of the sequence case, threading the accumulated set. -/
def Pool.queryList (p : Pool) (acc : List Link) :
    List Query → Except PyError (List Link)
  | [] => .ok acc
  | q :: qs =>
    match p.query q with
    | .error e => .error e
    | .ok xs => p.queryList (setUpdate acc xs) qs

end

/-- The per-slot write phase of `LVPPool._parallel_map`: starting from
`results = [None] * len(devices)`, apply `results[i] = outcomes[i]` for
each completed task `i`, in completion order (`order`).  A slot index out
of range writes nothing; `outcomes` is indexed like the device list. -/
def applyWrites {R : Type} (outcomes : List (Option R)) (order : List Nat)
    (init : List (Option R)) : List (Option R) :=
  order.foldl (fun acc i => acc.set i (outcomes.getD i none)) init

/-- `LVPPool._parallel_map` over explicit targets: every thread writes its
own slot of `results`; a task that raised, or that had not finished when
`join(timeout)` returned, has written nothing and its slot still holds
`None` — modelled by `outcomes[i] = none` or by `i ∉ order`.  The
returned mapping is `{dev.id: res for dev, res in zip(devices, results)}`,
assembled in target order. -/
def parallelMap {R : Type} (devs : List Link) (outcomes : List (Option R))
    (order : List Nat) : List (String × Option R) :=
  pyDictOfList
    ((devs.map Link.id).zip (applyWrites outcomes order (List.replicate devs.length none)))

example :
    parallelMap [⟨0, "A"⟩, ⟨1, "B"⟩] [some 7, (none : Option Nat)] [1, 0] =
      [("A", some 7), ("B", none)] := by decide
example :
    (mkPool [⟨0, "A"⟩, ⟨1, "B"⟩]).query (.seq [.str "B", .str "B", .str "A"]) =
      .ok [⟨1, "B"⟩, ⟨0, "A"⟩] := by decide
example : (mkPool [⟨0, "A"⟩]).query (.str "C") = .error .queryError := by decide
example : (mkPool [⟨0, "A"⟩, ⟨1, "B"⟩]).query .wild = .ok [⟨0, "A"⟩, ⟨1, "B"⟩] := by decide

/-! ## Specification-side definitions

Definitions transcribed from the specification's wording, used to compare
a claimed behaviour with the source's. -/

/-- A bare (Python-style) identifier: a letter or underscore followed by
word characters. -/
def claimIdent (cs : List Char) : Bool :=
  match cs with
  | [] => false
  | c :: rest => (c.isAlpha || c = '_') && rest.all isWordChar

/-- The declaration-specification form stated by the specification:
`name(arg1, arg2, …)` — "a bare identifier followed by a parenthesized
comma-separated argument-name list with no nested parentheses" (argument
names are identifiers, each allowing surrounding whitespace, and the list
may be empty). -/
def claimSpecForm (s : String) : Bool :=
  match splitAtFirst (fun c => c = '(') s.data with
  | none => false
  | some q =>
    claimIdent q.1 &&
    (match q.2.reverse with
     | ')' :: mid =>
       let args := mid.reverse
       args.all (fun c => !(c = '(' || c = ')')) &&
       (decide ((pyStrip (String.mk args)).data = []) ||
         (LVP.splitOnChar ',' args).all (fun a => claimIdent (pyStrip (String.mk a)).data))
     | _ => false)

example : claimSpecForm "blink(n, k)" = true := by decide
example : claimSpecForm "foo()" = true := by decide
example : claimSpecForm "foo(a,b" = false := by decide
example : claimSpecForm "foo(a$)" = false := by decide
example : claimSpecForm "1(a)" = false := by decide

/-! ## Claim theorems -/

/-- C1 (amended): the coercion of a captured get-response value first
strips the string; it returns the integer parse when the stripped string
parses as a Python integer, else the floating-point parse when it parses
as a Python float (integer tried before float), else the *stripped*
string — not the original untrimmed capture. -/
theorem C1_theorem (s : String) :
    (∀ n, pyParseInt (pyStrip s) = some n → normalize_response s = Value.int n) ∧
    (pyParseInt (pyStrip s) = none → pyFloatAccepts (pyStrip s) = true →
      normalize_response s = Value.float (pyStrip s)) ∧
    (pyParseInt (pyStrip s) = none → pyFloatAccepts (pyStrip s) = false →
      normalize_response s = Value.str (pyStrip s)) := by
  refine ⟨fun n h => ?_, fun h1 h2 => ?_, fun h1 h2 => ?_⟩ <;>
    simp [normalize_response, *]

/-- C1 counterexample: on the value `"abc "` (capturable, since
`GET_RESP_RE`'s value class greedily takes trailing spaces before the
line end) the coercion falls through to the string case and returns the
*stripped* string `"abc"`, not the original string `"abc "` unchanged as
the claim states. -/
theorem C1_counterexample :
    normalize_response "abc " = Value.str "abc" ∧
    normalize_response "abc " ≠ Value.str "abc " := by decide

/-- Witness for C1 at concrete inputs: `" 7 "` coerces to the integer 7
and `" x "` falls through to the stripped string. -/
theorem C1_witness :
    normalize_response " 7 " = Value.int 7 ∧
    normalize_response " x " = Value.str "x" :=
  ⟨(C1_theorem (" 7 ")).1 7 (by decide),
   (C1_theorem (" x ")).2.2 (by decide) (by decide)⟩

/-- C4 (code bug, evaluated at the failing input): entering the quiet
scope on a link whose quiet flag is off writes `quiet_connect\n` to the
wire, but — contrary to the claim and the surrounding intent — the
client-side quiet flag is still `false` inside the block, so `_recv`
still reads and returns the transport's bytes instead of being a no-op
returning an empty result.  (Entering while already quiet indeed performs
no wire action, the claim's second half.) -/
theorem C4_bug_eval :
    (LVP.quietEnter ⟨false, []⟩).1.sent = ["quiet_connect\n"] ∧
    (LVP.quietEnter ⟨false, []⟩).1.quiet = false ∧
    LVP.recv (LVP.quietEnter ⟨false, []⟩).1 "PONG\r\n" = "PONG\r\n" ∧
    (LVP.quietEnter ⟨true, []⟩).1 = ⟨true, []⟩ := by decide

/-- C5: for every prior value of the quiet flag and every block of
operations run inside the scope, leaving the quiet scope restores the
flag to exactly the prior value; and when the prior mode was non-quiet, a
`manual_connect` exchange is issued on exit. -/
theorem C5_theorem (st : WireState) (body : WireState → WireState)
    (incoming : String) :
    (LVP.quietExit (body (LVP.quietEnter st).1) (LVP.quietEnter st).2
        incoming).quiet = st.quiet ∧
    (st.quiet = false →
      (LVP.quietExit (body (LVP.quietEnter st).1) (LVP.quietEnter st).2
          incoming).sent
        = (body (LVP.quietEnter st).1).sent ++ ["manual_connect\n"]) := by
  have h2 : (LVP.quietEnter st).2 = st.quiet := by
    unfold LVP.quietEnter; cases st.quiet <;> simp
  rw [h2]
  cases h : st.quiet <;>
    simp [LVP.quietExit, LVP.send, LVP.sendRaw]

/-- Witness for C5: a non-quiet link entering and leaving the scope with
an identity block ends with the flag off and `manual_connect\n` written
after `quiet_connect\n`. -/
theorem C5_witness :
    (LVP.quietExit ((fun s => s) (LVP.quietEnter ⟨false, []⟩).1)
        (LVP.quietEnter ⟨false, []⟩).2 "Manual connection established.\n").sent
      = ["quiet_connect\n", "manual_connect\n"] := by
  rw [(C5_theorem ⟨false, []⟩ (fun s => s)
    "Manual connection established.\n").2 rfl]
  decide

/-- C6: for every requested name and decoded response, if the response
has no `GET_RESP_RE` match, or the matched name differs from the
requested one, `_get` raises the protocol error carrying the raw
response text; otherwise no error is raised and the coerced captured
value is returned. -/
theorem C6_theorem (name resp : String) :
    (searchGetResp resp.data = none →
      LVP.getOne name resp = .error (.badResponse resp)) ∧
    (∀ nm v, searchGetResp resp.data = some (nm, v) → nm ≠ name →
      LVP.getOne name resp = .error (.badResponse resp)) ∧
    (∀ nm v, searchGetResp resp.data = some (nm, v) → nm = name →
      LVP.getOne name resp = .ok (normalize_response v)) := by
  refine ⟨fun h => ?_, fun nm v h hne => ?_, fun nm v h he => ?_⟩ <;>
    simp [LVP.getOne, *]

/-- Witness for C6 at concrete exchanges: a well-formed response for the
requested name coerces, a garbage response errors with the raw text, and
a well-formed response for a different name errors with the raw text. -/
theorem C6_witness :
    LVP.getOne "x" "Parameter 'x': 42\n" = .ok (Value.int 42) ∧
    LVP.getOne "x" "garbage" = .error (.badResponse "garbage") ∧
    LVP.getOne "y" "Parameter 'x': 42\n"
      = .error (.badResponse "Parameter 'x': 42\n") := by
  refine ⟨?_, ?_, ?_⟩
  · rw [(C6_theorem ("x") ("Parameter 'x': 42\n")).2.2 "x" "42" (by decide) rfl]
    decide
  · exact (C6_theorem ("x") ("garbage")).1 (by decide)
  · exact (C6_theorem ("y") ("Parameter 'x': 42\n")).2.1 "x" "42" (by decide)
      (by decide)

/-- C7 counterexample: `"foo(a$)"` is not of the claimed form
`name(arg1, arg2, …)` — `a$` is no argument name — yet `declare` accepts
it (the source pattern allows any non-parenthesis characters between the
parentheses) and registers a function, so the claim as stated is false. -/
theorem C7_counterexample :
    claimSpecForm "foo(a$)" = false ∧
    LVP.declare [] "foo(a$)" = .ok [("foo", ⟨"foo", ["a$"]⟩)] := by decide

/-- C7 (amended): every specification string rejected by
`FUNC_SPEC_RE.fullmatch` — one or more word characters, `(`, any run of
non-parenthesis characters, `)`, and nothing else — raises the parse
error carrying the spec, and no function is registered (the link's
function table is unchanged, the call returning only the error). -/
theorem C7_theorem (funcs : List (String × LVP.FuncDecl)) (spec : String)
    (h : funcSpecFullmatch spec.data = none) :
    LVP.declare funcs spec = .error (.valueError spec) := by
  simp [LVP.declare, h]

/-- Witness for C7 at the specification's own example `"foo(a,b"`
(missing closing parenthesis). -/
theorem C7_witness :
    LVP.declare [] "foo(a,b" = .error (.valueError "foo(a,b") :=
  C7_theorem [] "foo(a,b" (by decide)

/-- C9: calling `set` with more than two positional arguments raises
`TypeError` with an empty wire trace — no assignment exchange reaches the
device. -/
theorem C9_theorem (n : Nat) (kwargs : List (String × Value))
    (responses : List String) :
    LVP.set (.extra n) kwargs responses = ([], .error .typeError) := rfl

/-- C10: the empty sequence selector resolves to the empty list of links
(`result = set()` stays empty and is returned), not a query error. -/
theorem C10_theorem (p : Pool) : p.query (.seq []) = .ok [] := rfl

/-! ## C8: the set-assignment exchange loop -/

theorem getD_zero_headD (l : List String) : l.getD 0 "" = l.head?.getD "" := by
  cases l <;> rfl

theorem getD_succ_tail (l : List String) (i : Nat) :
    l.getD (i + 1) "" = l.tail.getD i "" := by
  cases l <;> rfl

/-- When every response in order matches its assignment's name, the loop
sends every assignment's command in order and succeeds. -/
theorem setRun_ok (asg : List (String × Value)) (responses : List String)
    (h : ∀ i, i < asg.length →
      LVP.checkSetResp ((asg.getD i ("", .str "")).1) (responses.getD i "") = true) :
    LVP.setRun asg responses =
      (asg.map (fun p => LVP.setMsg p.1 p.2), .ok ()) := by
  induction asg generalizing responses with
  | nil => rfl
  | cons p rest ih =>
    have h0 := h 0 (Nat.succ_pos _)
    rw [List.getD_cons_zero, getD_zero_headD] at h0
    have hrest : ∀ i, i < rest.length →
        LVP.checkSetResp ((rest.getD i ("", .str "")).1)
          (responses.tail.getD i "") = true := by
      intro i hi
      have := h (i + 1) (Nat.succ_lt_succ hi)
      rwa [List.getD_cons_succ, getD_succ_tail] at this
    simp [LVP.setRun, h0, ih responses.tail hrest]

/-- When the `i`-th response is the first that fails to match, the loop
sends the first `i + 1` commands and stops with the protocol error
carrying that raw response. -/
theorem setRun_err (asg : List (String × Value)) :
    ∀ (responses : List String) (i : Nat), i < asg.length →
    (∀ j, j < i →
      LVP.checkSetResp ((asg.getD j ("", .str "")).1) (responses.getD j "") = true) →
    LVP.checkSetResp ((asg.getD i ("", .str "")).1) (responses.getD i "") = false →
    LVP.setRun asg responses =
      ((asg.take (i + 1)).map (fun p => LVP.setMsg p.1 p.2),
        .error (.badResponse (responses.getD i ""))) := by
  induction asg with
  | nil => intro _ i hi; exact absurd hi (Nat.not_lt_zero i)
  | cons p rest ih =>
    intro responses i hi hok hbad
    cases i with
    | zero =>
      rw [List.getD_cons_zero, getD_zero_headD] at hbad
      rw [getD_zero_headD]
      simp [LVP.setRun, hbad]
    | succ i' =>
      have h0 := hok 0 (Nat.succ_pos _)
      rw [List.getD_cons_zero, getD_zero_headD] at h0
      rw [List.getD_cons_succ, getD_succ_tail] at hbad
      rw [getD_succ_tail]
      have hok' : ∀ j, j < i' →
          LVP.checkSetResp ((rest.getD j ("", .str "")).1)
            (responses.tail.getD j "") = true := by
        intro j hj
        have := hok (j + 1) (Nat.succ_lt_succ hj)
        rwa [List.getD_cons_succ, getD_succ_tail] at this
      simp [LVP.setRun, h0,
        ih responses.tail i' (Nat.lt_of_succ_lt_succ hi) hok' hbad]

/-- C8: `set` merges its arguments — one positional mapping merged under
the keyword arguments, a single key/value pair assigned into them, or the
keyword arguments alone — into one ordered assignment set
(`mergedAssignments`) and performs one `send("set(NAME,VALUE)")` exchange
per key, sequentially in the supplied order with no batching: when every
response matches `Parameter 'NAME' set to 'VALUE'` with the same name the
trace is exactly the assignment commands in order, and the first
non-matching response stops the loop with a protocol error carrying that
raw response (later assignments are never sent). -/
theorem C8_theorem (args : LVP.SetArgs) (kwargs : List (String × Value))
    (responses : List String) (hargs : ∀ n, args ≠ .extra n) :
    ((∀ i, i < (LVP.mergedAssignments args kwargs).length →
        LVP.checkSetResp (((LVP.mergedAssignments args kwargs).getD i ("", .str "")).1)
          (responses.getD i "") = true) →
      LVP.set args kwargs responses =
        ((LVP.mergedAssignments args kwargs).map (fun p => LVP.setMsg p.1 p.2),
          .ok ())) ∧
    (∀ i, i < (LVP.mergedAssignments args kwargs).length →
      (∀ j, j < i →
        LVP.checkSetResp (((LVP.mergedAssignments args kwargs).getD j ("", .str "")).1)
          (responses.getD j "") = true) →
      LVP.checkSetResp (((LVP.mergedAssignments args kwargs).getD i ("", .str "")).1)
        (responses.getD i "") = false →
      LVP.set args kwargs responses =
        (((LVP.mergedAssignments args kwargs).take (i + 1)).map
            (fun p => LVP.setMsg p.1 p.2),
          .error (.badResponse (responses.getD i "")))) := by
  have hset : LVP.set args kwargs responses
      = LVP.setRun (LVP.mergedAssignments args kwargs) responses := by
    cases args with
    | extra n => exact absurd rfl (hargs n)
    | noArgs => rfl
    | mapping m => rfl
    | pair k v => rfl
  rw [hset]
  exact ⟨fun h => setRun_ok _ _ h,
    fun i hi hok hbad => setRun_err _ _ i hi hok hbad⟩

/-- Witness for C8: `set("x", 1, y="on")` merges to the ordered
assignments `y ↦ on, x ↦ 1` (keyword arguments first, then the positional
pair assigned into them) and, with matching responses, sends exactly
`set(y,on)` then `set(x,1)`; with a wrong-name first response it raises
the protocol error carrying that response after one command. -/
theorem C8_witness :
    LVP.set (.pair "x" (.int 1)) [("y", .str "on")]
        ["Parameter 'y' set to 'on'\n", "Parameter 'x' set to '1'\n"] =
      (["set(y,on)", "set(x,1)"], .ok ()) ∧
    LVP.set (.pair "x" (.int 1)) [("y", .str "on")]
        ["Parameter 'z' set to 'on'\n"] =
      (["set(y,on)"],
        .error (.badResponse "Parameter 'z' set to 'on'\n")) := by
  constructor
  · rw [(C8_theorem (.pair "x" (.int 1)) [("y", .str "on")]
      ["Parameter 'y' set to 'on'\n", "Parameter 'x' set to '1'\n"]
      (fun n h => LVP.SetArgs.noConfusion h)).1 (by decide)]
    decide
  · rw [(C8_theorem (.pair "x" (.int 1)) [("y", .str "on")]
      ["Parameter 'z' set to 'on'\n"]
      (fun n h => LVP.SetArgs.noConfusion h)).2 0 (by decide)
      (fun j hj => absurd hj (Nat.not_lt_zero j)) (by decide)]
    decide

/-! ## C2: parallel fan-out assembly -/

theorem applyWrites_cons {R : Type} (outcomes : List (Option R)) (i : Nat)
    (order : List Nat) (init : List (Option R)) :
    applyWrites outcomes (i :: order) init
      = applyWrites outcomes order (init.set i (outcomes.getD i none)) := rfl

theorem applyWrites_length {R : Type} (outcomes : List (Option R)) :
    ∀ (order : List Nat) (init : List (Option R)),
      (applyWrites outcomes order init).length = init.length := by
  intro order
  induction order with
  | nil => intro init; rfl
  | cons i rest ih => intro init; rw [applyWrites_cons, ih, List.length_set]

/-- The content of a result slot depends only on whether its write
completed, never on where in the completion order it happened. -/
theorem applyWrites_getElem? {R : Type} (outcomes : List (Option R)) :
    ∀ (order : List Nat) (init : List (Option R)) (j : Nat),
      (applyWrites outcomes order init)[j]? =
        if j ∈ order ∧ j < init.length then some (outcomes.getD j none)
        else init[j]? := by
  intro order
  induction order with
  | nil => intro init j; simp [applyWrites]
  | cons i rest ih =>
    intro init j
    rw [applyWrites_cons, ih]
    by_cases hjl : j < init.length
    · by_cases hjr : j ∈ rest
      · simp [hjr, hjl, List.length_set, List.mem_cons]
      · by_cases hji : j = i
        · subst hji
          simp [hjr, hjl, List.length_set, List.mem_cons, List.getElem?_set]
        · simp [hjr, hjl, List.length_set, List.mem_cons, hji,
            List.getElem?_set_ne (fun h => hji h.symm)]
    · have hle : init.length ≤ j := Nat.le_of_not_lt hjl
      rw [List.getElem?_eq_none hle,
        List.getElem?_eq_none (by simpa [List.length_set] using hle)]
      simp [hjl, List.length_set]

theorem pyDictInsert_not_mem {K V : Type} [DecidableEq K]
    (d : List (K × V)) (k : K) (v : V) (h : k ∉ d.map Prod.fst) :
    pyDictInsert d k v = d ++ [(k, v)] := by
  simp [pyDictInsert, h]

theorem foldl_pyDictInsert_nodup {K V : Type} [DecidableEq K] :
    ∀ (l acc : List (K × V)), ((acc ++ l).map Prod.fst).Nodup →
      l.foldl (fun d p => pyDictInsert d p.1 p.2) acc = acc ++ l := by
  intro l
  induction l with
  | nil => intro acc _; simp
  | cons p rest ih =>
    intro acc h
    rw [show ((acc ++ p :: rest).map Prod.fst)
        = acc.map Prod.fst ++ p.1 :: rest.map Prod.fst by simp] at h
    have hp : p.1 ∉ acc.map Prod.fst := by
      rcases List.nodup_append.mp h with ⟨-, -, hdisj⟩
      exact fun hmem => hdisj hmem (List.mem_cons_self _ _)
    rw [List.foldl_cons]
    show List.foldl _ (pyDictInsert acc p.1 p.2) rest = _
    rw [pyDictInsert_not_mem acc p.1 p.2 hp, ih (acc ++ [p]) (by simpa using h)]
    simp

/-- Inserting an association list with duplicate-free keys into an empty
dict is the identity. -/
theorem pyDictOfList_eq_self {K V : Type} [DecidableEq K]
    (l : List (K × V)) (h : (l.map Prod.fst).Nodup) : pyDictOfList l = l := by
  simpa [pyDictOfList] using foldl_pyDictInsert_nodup l [] (by simpa using h)

theorem getD_mem_of_lt {α : Type} (l : List α) (i : Nat) (d : α)
    (h : i < l.length) : l.getD i d ∈ l := by
  rw [List.getD_eq_getElem?_getD, List.getElem?_eq_getElem h]
  exact List.getElem_mem h

theorem pyLookup_cons_self {K V : Type} [DecidableEq K]
    (k : K) (v : V) (d : List (K × V)) : pyLookup ((k, v) :: d) k = some v := by
  simp [pyLookup, List.find?_cons]

theorem pyLookup_cons_ne {K V : Type} [DecidableEq K] (k : K) (v : V)
    (d : List (K × V)) (key : K) (h : k ≠ key) :
    pyLookup ((k, v) :: d) key = pyLookup d key := by
  simp [pyLookup, List.find?_cons, h]

/-- Looking up the `i`-th key of a duplicate-free zipped mapping yields
the `i`-th value. -/
theorem pyLookup_zip {K V : Type} [DecidableEq K] :
    ∀ (ids : List K) (res : List V) (dK : K), ids.Nodup →
      res.length = ids.length → ∀ i, i < ids.length →
      pyLookup (ids.zip res) (ids.getD i dK) = res[i]? := by
  intro ids
  induction ids with
  | nil => intro res dK _ _ i hi; exact absurd hi (Nat.not_lt_zero i)
  | cons k ids' ih =>
    intro res dK hnd hlen i hi
    cases res with
    | nil => simp at hlen
    | cons r res' =>
      cases i with
      | zero => simp [List.zip_cons_cons, pyLookup_cons_self]
      | succ i' =>
        have hi' : i' < ids'.length := Nat.lt_of_succ_lt_succ hi
        have hki : ids'.getD i' dK ∈ ids' := getD_mem_of_lt _ _ _ hi'
        have hne : k ≠ ids'.getD i' dK :=
          fun he => (List.nodup_cons.mp hnd).1 (he ▸ hki)
        rw [List.getD_cons_succ, List.zip_cons_cons,
          pyLookup_cons_ne _ _ _ _ hne]
        rw [ih res' dK (List.nodup_cons.mp hnd).2 (by simpa using hlen) i' hi']
        simp

/-- For duplicate-free target ids the dict comprehension over
`zip(devices, results)` is the zipped list itself. -/
theorem parallelMap_eq_zip {R : Type} (devs : List Link)
    (outcomes : List (Option R)) (order : List Nat)
    (hids : (devs.map Link.id).Nodup) :
    parallelMap devs outcomes order =
      (devs.map Link.id).zip
        (applyWrites outcomes order (List.replicate devs.length none)) := by
  apply pyDictOfList_eq_self
  rw [List.map_fst_zip]
  · exact hids
  · rw [applyWrites_length, List.length_replicate, List.length_map]

/-- C2 (amended): a fan-out over `N` targets with duplicate-free ids
returns a mapping whose keys are exactly the `N` targets' ids in target
order, assembled independently of the completion order of the tasks; a
target whose task failed or exceeded the timeout (its slot never written,
or written with no result) is *present* in the mapping with the unset
placeholder `None` as its value — not absent — and no failure aborts the
whole call. -/
theorem C2_theorem {R : Type} (devs : List Link) (outcomes : List (Option R))
    (ord₁ ord₂ : List Nat) (hids : (devs.map Link.id).Nodup)
    (hord : ∀ j, j ∈ ord₁ ↔ j ∈ ord₂) :
    parallelMap devs outcomes ord₁ = parallelMap devs outcomes ord₂ ∧
    (parallelMap devs outcomes ord₁).map Prod.fst = devs.map Link.id ∧
    (∀ i, i < devs.length → (i ∉ ord₁ ∨ outcomes.getD i none = none) →
      pyLookup (parallelMap devs outcomes ord₁)
        ((devs.map Link.id).getD i "") = some none) := by
  have hreslen : ∀ order : List Nat,
      (applyWrites outcomes order (List.replicate devs.length none)).length
        = devs.length := by
    intro order; rw [applyWrites_length, List.length_replicate]
  refine ⟨?_, ?_, ?_⟩
  · unfold parallelMap
    congr 1
    congr 1
    apply List.ext_getElem?
    intro j
    rw [applyWrites_getElem?, applyWrites_getElem?]
    simp only [hord j]
  · rw [parallelMap_eq_zip _ _ _ hids, List.map_fst_zip]
    rw [hreslen, List.length_map]
  · intro i hi hfail
    rw [parallelMap_eq_zip _ _ _ hids,
      pyLookup_zip (devs.map Link.id) _ "" hids
        (by rw [hreslen, List.length_map]) i (by rwa [List.length_map]),
      applyWrites_getElem?]
    rcases hfail with hnot | hnone
    · rw [if_neg (fun hc => hnot hc.1)]
      simp [List.getElem?_replicate, hi]
    · by_cases hmem : i ∈ ord₁ ∧ i < (List.replicate devs.length (none : Option R)).length
      · rw [if_pos hmem, hnone]
      · rw [if_neg hmem]
        simp [List.getElem?_replicate, hi]

/-- C2 counterexample: a single target `"A"` whose task never completed
still appears as a key of the returned mapping, bound to the unset
placeholder — the claimed missing/absent entry for its id does not
happen. -/
theorem C2_counterexample :
    parallelMap [⟨0, "A"⟩] ([none] : List (Option Nat)) [] = [("A", none)] ∧
    pyLookup (parallelMap [⟨0, "A"⟩] ([none] : List (Option Nat)) []) "A"
      ≠ none := by decide

/-- Witness for C2: two targets, the second task timed out; the keys are
exactly `["A", "B"]` in target order and `"B"` maps to the placeholder. -/
theorem C2_witness :
    (parallelMap [(⟨0, "A"⟩ : Link), ⟨1, "B"⟩] [some 7, (none : Option Nat)]
        [0]).map Prod.fst = ["A", "B"] ∧
    pyLookup (parallelMap [(⟨0, "A"⟩ : Link), ⟨1, "B"⟩]
        [some 7, (none : Option Nat)] [0])
      ((([(⟨0, "A"⟩ : Link), ⟨1, "B"⟩]).map Link.id).getD 1 "") = some none := by
  have h := C2_theorem [(⟨0, "A"⟩ : Link), ⟨1, "B"⟩]
    [some 7, (none : Option Nat)] [0] [0] (by decide) (fun j => Iff.rfl)
  exact ⟨h.2.1, h.2.2 1 (by decide) (Or.inl (by decide))⟩

/-! ## C3, C10: query resolution -/

theorem setAdd_of_mem {x : Link} {acc : List Link} (h : x ∈ acc) :
    setAdd acc x = acc := by
  simp [setAdd, h]

theorem mem_setAdd_self (acc : List Link) (x : Link) : x ∈ setAdd acc x := by
  by_cases h : x ∈ acc <;> simp [setAdd, h]

theorem mem_setAdd_of_mem {a x : Link} {acc : List Link} (h : a ∈ acc) :
    a ∈ setAdd acc x := by
  by_cases hx : x ∈ acc <;> simp [setAdd, hx, h]

theorem mem_setUpdate_of_mem (a : Link) :
    ∀ (xs acc : List Link), a ∈ acc → a ∈ setUpdate acc xs := by
  intro xs
  induction xs with
  | nil => intro acc h; exact h
  | cons x xs ih => intro acc h; exact ih _ (mem_setAdd_of_mem h)

theorem mem_setUpdate_self (a : Link) :
    ∀ (xs acc : List Link), a ∈ xs → a ∈ setUpdate acc xs := by
  intro xs
  induction xs with
  | nil => intro acc h; exact absurd h (List.not_mem_nil a)
  | cons x xs ih =>
    intro acc h
    rcases List.mem_cons.mp h with rfl | h'
    · show a ∈ setUpdate (setAdd acc a) xs
      exact mem_setUpdate_of_mem _ _ _ (mem_setAdd_self _ _)
    · show a ∈ setUpdate (setAdd acc x) xs
      exact ih _ h'

theorem setUpdate_of_subset :
    ∀ (xs acc : List Link), (∀ x ∈ xs, x ∈ acc) → setUpdate acc xs = acc := by
  intro xs
  induction xs with
  | nil => intro acc _; rfl
  | cons x xs ih =>
    intro acc h
    show setUpdate (setAdd acc x) xs = acc
    rw [setAdd_of_mem (h x (List.mem_cons_self _ _))]
    exact ih _ (fun y hy => h y (List.mem_cons_of_mem _ hy))

/-- Adding the same result set to the accumulated union twice is the same
as adding it once. -/
theorem setUpdate_idem (acc xs : List Link) :
    setUpdate (setUpdate acc xs) xs = setUpdate acc xs :=
  setUpdate_of_subset _ _ (fun _x hx => mem_setUpdate_self _ _ _ hx)

theorem mem_pyDictInsert {K V : Type} [DecidableEq K] (d : List (K × V))
    (k : K) (v : V) (q : K × V) (h : q ∈ pyDictInsert d k v) :
    q ∈ d ∨ q = (k, v) := by
  unfold pyDictInsert at h
  by_cases hk : k ∈ d.map Prod.fst
  · rw [if_pos hk] at h
    rcases List.mem_map.mp h with ⟨p, hp, he⟩
    by_cases hpk : p.1 = k
    · right; rw [← he]; simp [hpk]
    · left; rw [← he]; simpa [hpk] using hp
  · rw [if_neg hk] at h
    rcases List.mem_append.mp h with h' | h'
    · left; exact h'
    · right; simpa using h'

/-- Every entry of a built dict comes from the inserted pairs, so any
property of all inserted pairs holds of all entries. -/
theorem pyDictOfList_entries {K V : Type} [DecidableEq K] (P : K × V → Prop) :
    ∀ (l acc : List (K × V)), (∀ q ∈ acc, P q) → (∀ q ∈ l, P q) →
      ∀ q ∈ l.foldl (fun d p => pyDictInsert d p.1 p.2) acc, P q := by
  intro l
  induction l with
  | nil => intro acc hacc _ q hq; exact hacc q hq
  | cons p rest ih =>
    intro acc hacc hl q hq
    rw [List.foldl_cons] at hq
    refine ih (pyDictInsert acc p.1 p.2) ?_
      (fun r hr => hl r (List.mem_cons_of_mem _ hr)) q hq
    intro r hr
    rcases mem_pyDictInsert _ _ _ _ hr with h' | h'
    · exact hacc r h'
    · rw [h']
      simpa using hl p (List.mem_cons_self _ _)

theorem pyDictInsert_keys {K V : Type} [DecidableEq K] (d : List (K × V))
    (k : K) (v : V) :
    (pyDictInsert d k v).map Prod.fst
      = if k ∈ d.map Prod.fst then d.map Prod.fst
        else d.map Prod.fst ++ [k] := by
  unfold pyDictInsert
  by_cases hk : k ∈ d.map Prod.fst
  · rw [if_pos hk, if_pos hk, List.map_map]
    apply List.map_congr_left
    intro p _
    by_cases hpk : p.1 = k <;> simp [hpk]
  · rw [if_neg hk, if_neg hk]; simp

/-- A built dict has duplicate-free keys. -/
theorem pyDictOfList_keys_nodup {K V : Type} [DecidableEq K] :
    ∀ (l acc : List (K × V)), (acc.map Prod.fst).Nodup →
      ((l.foldl (fun d p => pyDictInsert d p.1 p.2) acc).map Prod.fst).Nodup := by
  intro l
  induction l with
  | nil => intro acc h; exact h
  | cons p rest ih =>
    intro acc h
    rw [List.foldl_cons]
    apply ih
    rw [pyDictInsert_keys]
    by_cases hk : p.1 ∈ acc.map Prod.fst
    · rw [if_pos hk]; exact h
    · rw [if_neg hk, List.nodup_append]
      refine ⟨h, List.nodup_singleton _, fun a ha hb => ?_⟩
      rw [List.mem_singleton.mp hb] at ha
      exact hk ha

/-- Every registry entry of a constructed pool maps an id to a link
carrying exactly that id. -/
theorem mkPool_registry_prop (devs : List Link) :
    ∀ q ∈ (mkPool devs).registry, q.2.id = q.1 := by
  intro q hq
  have hq' : q ∈ (devs.map (fun d => (d.id, d))).foldl
      (fun d p => pyDictInsert d p.1 p.2) [] := hq
  refine pyDictOfList_entries (fun q => q.2.id = q.1)
    (devs.map (fun d => (d.id, d))) []
    (fun r hr => absurd hr (List.not_mem_nil r)) ?_ q hq'
  intro r hr
  rcases List.mem_map.mp hr with ⟨d, _, he⟩
  rw [← he]

theorem mkPool_keys_nodup (devs : List Link) :
    ((mkPool devs).registry.map Prod.fst).Nodup :=
  pyDictOfList_keys_nodup _ [] (by simp)

/-- The registered links of a constructed pool are pairwise distinct. -/
theorem mkPool_iterLinks_nodup (devs : List Link) :
    ((mkPool devs).iterLinks).Nodup := by
  have hmap : ((mkPool devs).iterLinks).map Link.id
      = (mkPool devs).registry.map Prod.fst := by
    unfold Pool.iterLinks
    rw [List.map_map]
    exact List.map_congr_left (fun q hq => mkPool_registry_prop devs q hq)
  exact List.Nodup.of_map Link.id (hmap ▸ mkPool_keys_nodup devs)

/-- C3: on any constructed pool, `query([a, a, b])` returns exactly the
same (deduplicated) result as `query([a, b])` for arbitrary selectors —
in this embedding even the same list, since the set union is accumulated
in canonical first-insertion order — and `query(...)`, the wildcard,
returns every registered link exactly once in the pool's iteration
order. -/
theorem C3_theorem (devs : List Link) (qa qb : Query) :
    (mkPool devs).query (.seq [qa, qa, qb])
      = (mkPool devs).query (.seq [qa, qb]) ∧
    (mkPool devs).query .wild = .ok ((mkPool devs).iterLinks) ∧
    ((mkPool devs).iterLinks).Nodup := by
  refine ⟨?_, rfl, mkPool_iterLinks_nodup devs⟩
  show (mkPool devs).queryList [] [qa, qa, qb]
      = (mkPool devs).queryList [] [qa, qb]
  cases h : (mkPool devs).query qa with
  | error e => simp [Pool.queryList, h]
  | ok xs => simp [Pool.queryList, h, setUpdate_idem]
